import Mathlib

/-!
Shallow embedding of the core entity-lifecycle and spawn-scheduling logic of
the Whack-a-Zombie repository: `Zombie` (src/zombie.py, src/waz.py — the two
copies are line-for-line identical in their state logic), `Brain`
(src/brain.py), and `Spawner` (src/spawner.py, plus the waz.py variant that
differs in its spawn condition and rescheduling).

Timestamps and durations are Python ints, modelled as `Int`.  Randomness
(`random.randint` jitter, `random.choice` picks, `random.random()`
probability draws) is modelled by explicit parameters.  Rendering, particle
effects and asset loading are out of scope of the specified core and carry no
state consulted by the lifecycle logic.
-/

/-! ## Constants (src/constants.py and module-level constants of src/waz.py) -/

def ATTACK_ANIM_MS : Int := 300

def MAX_LIFETIME_MS : Int := 2000

def SPAWN_INTERVAL_MS : Int := 1000

def LEVEL_SPAWN_DECREASE : Int := 50

def LEVEL_LIFETIME_DECREASE : Int := 100

def MIN_SPAWN_INTERVAL : Int := 500

def MIN_ZOMBIE_LIFETIME : Int := 500

def BRAIN_LIFETIME_MS : Int := 1000

def BRAIN_SPAWN_CHECK_INTERVAL_MS : Int := 4000

namespace WAZ

def SPAWN_INTERVAL_MS : Int := 600

def MIN_SPAWN_INTERVAL : Int := 200

def MAX_CONCURRENT_ZOMBIES : Nat := 1

end WAZ

/-! ## Data model (src/models.py) -/

structure SpawnPoint where
  pos : Int × Int
  radius : Int
deriving DecidableEq, Repr

/-! ## Zombie (src/zombie.py lines 116-189; identical logic in src/waz.py) -/

structure Zombie where
  spawn : SpawnPoint
  born_at : Int
  lifetime : Int
  dead : Bool
  hit : Bool
  hit_time : Option Int
  despawn_start : Option Int
  attacking : Bool
  attack_start : Option Int
  has_dealt_damage : Bool
deriving DecidableEq, Repr

namespace Zombie

def SPAWN_ANIM_MS : Int := 150

def DESPAWN_ANIM_MS : Int := 250

def HIT_FLASH_MS : Int := 150

/-- `Zombie.__init__(spawn, born_at_ms, lifetime_ms)` (logic fields only). -/
def init (spawn : SpawnPoint) (born_at_ms lifetime_ms : Int) : Zombie where
  spawn := spawn
  born_at := born_at_ms
  lifetime := lifetime_ms
  dead := false
  hit := false
  hit_time := none
  despawn_start := none
  attacking := false
  attack_start := none
  has_dealt_damage := false

/-- `Zombie.is_active(now_ms)`. -/
def is_active (z : Zombie) (_now_ms : Int) : Bool :=
  !z.dead

/-- `Zombie.mark_hit(now_ms)`: guarded transition into the hit/despawn flow. -/
def mark_hit (z : Zombie) (now_ms : Int) : Zombie :=
  if z.hit = true ∨ z.dead = true ∨ z.attacking = true then z
  else { z with hit := true, hit_time := some now_ms, despawn_start := some now_ms }

/-- `Zombie.start_attack(now_ms)`: guarded transition into attacking. -/
def start_attack (z : Zombie) (now_ms : Int) : Zombie :=
  if z.hit = true ∨ z.dead = true ∨ z.attacking = true then z
  else { z with attacking := true, attack_start := some now_ms }

/-- First block of `Zombie.update`: lifetime expiry starts the attack. -/
def updateAttackPhase (z : Zombie) (now_ms : Int) : Zombie :=
  if z.hit = false ∧ z.attacking = false ∧ now_ms - z.born_at ≥ z.lifetime ∧
      z.despawn_start = none then
    z.start_attack now_ms
  else z

/-- Second block of `Zombie.update`: attack-animation completion deals damage
once (guarded by `has_dealt_damage`) and starts the despawn. -/
def updateDamagePhase (z : Zombie) (now_ms : Int) : Zombie × Bool :=
  match z.attack_start with
  | some a =>
      if z.attacking = true ∧ z.has_dealt_damage = false ∧ now_ms - a ≥ ATTACK_ANIM_MS then
        ({ z with has_dealt_damage := true, despawn_start := some now_ms }, true)
      else (z, false)
  | none => (z, false)

/-- Third block of `Zombie.update`: despawn-animation completion kills. -/
def updateDespawnPhase (z : Zombie) (now_ms : Int) : Zombie :=
  match z.despawn_start with
  | some d => if now_ms - d ≥ DESPAWN_ANIM_MS then { z with dead := true } else z
  | none => z

/-- `Zombie.update(now_ms)`: the three sequential blocks of the source method;
returns the new state and the `attack_occurred` flag. -/
def update (z : Zombie) (now_ms : Int) : Zombie × Bool :=
  let z1 := z.updateAttackPhase now_ms
  let p := z1.updateDamagePhase now_ms
  (p.1.updateDespawnPhase now_ms, p.2)

/-- Run a sequence of `update` calls, counting how many returned True. -/
def runUpdates (z : Zombie) : List Int → Zombie × Nat
  | [] => (z, 0)
  | t :: ts =>
      let p := z.update t
      let q := p.1.runUpdates ts
      (q.1, (if p.2 then 1 else 0) + q.2)

end Zombie

/-! ## Brain pickup (src/brain.py lines 61-98 and 163-174) -/

structure Brain where
  spawn : SpawnPoint
  born_at : Int
  lifetime : Int
  dead : Bool
  picked_up : Bool
  pickup_time : Option Int
  despawn_start : Option Int
deriving DecidableEq, Repr

namespace Brain

def SPAWN_ANIM_MS : Int := 200

def DESPAWN_ANIM_MS : Int := 300

/-- `Brain.__init__(spawn, born_at_ms)` (logic fields only). -/
def init (spawn : SpawnPoint) (born_at_ms : Int) : Brain where
  spawn := spawn
  born_at := born_at_ms
  lifetime := BRAIN_LIFETIME_MS
  dead := false
  picked_up := false
  pickup_time := none
  despawn_start := none

/-- `Brain.is_active(now_ms)`. -/
def is_active (b : Brain) (_now_ms : Int) : Bool :=
  !b.dead

/-- `Brain.mark_picked_up(now_ms)`: guarded only by `picked_up` / `dead`. -/
def mark_picked_up (b : Brain) (now_ms : Int) : Brain :=
  if b.picked_up = true ∨ b.dead = true then b
  else { b with picked_up := true, pickup_time := some now_ms, despawn_start := some now_ms }

/-- `Brain.update(now_ms)`: lifetime expiry starts the despawn; despawn
completion kills. -/
def update (b : Brain) (now_ms : Int) : Brain :=
  let b1 :=
    if b.picked_up = false ∧ b.dead = false ∧ b.despawn_start = none ∧
        now_ms - b.born_at ≥ b.lifetime then
      { b with despawn_start := some now_ms }
    else b
  match b1.despawn_start with
  | some d => if now_ms - d ≥ DESPAWN_ANIM_MS then { b1 with dead := true } else b1
  | none => b1

/-- `Brain.contains_point(point)`.  Whether the sprite is loaded and its
scaled size come from the asset environment and are passed explicitly; the
rectangle test is pygame `Rect.collidepoint` on the rect centred on the
spawn position (inclusive left/top, exclusive right/bottom). -/
def contains_point (b : Brain) (sprites_loaded : Bool) (sprite_w sprite_h : Int)
    (point : Int × Int) : Bool :=
  if b.picked_up = true ∨ b.dead = true then false
  else if sprites_loaded then
    let left := b.spawn.pos.1 - sprite_w / 2
    let top := b.spawn.pos.2 - sprite_h / 2
    decide (left ≤ point.1 ∧ point.1 < left + sprite_w ∧
      top ≤ point.2 ∧ point.2 < top + sprite_h)
  else false

end Brain

/-! ## Spawner (src/spawner.py) -/

structure Spawner where
  spawn_points : List SpawnPoint
  next_spawn_at : Int
  next_brain_check_at : Int
deriving DecidableEq, Repr

/-- Model of `random.choice(l)`: an arbitrary element of `l`, selected by an
arbitrary index draw; `none` exactly when `l` is empty (the source only calls
it on lists checked to be nonempty). -/
def chooseFrom {α : Type} (l : List α) (pick : Nat) : Option α :=
  l[pick % l.length]?

namespace Spawner

/-- `Spawner.__init__(spawn_points)`. -/
def init (spawn_points : List SpawnPoint) : Spawner where
  spawn_points := spawn_points
  next_spawn_at := 0
  next_brain_check_at := 0

/-- `Spawner.get_spawn_interval(level)`. -/
def get_spawn_interval (_sp : Spawner) (level : Int) : Int :=
  max MIN_SPAWN_INTERVAL (SPAWN_INTERVAL_MS - (level - 1) * LEVEL_SPAWN_DECREASE)

/-- `Spawner.schedule_next(now_ms, level)`; `jitter` is the
`random.randint(-150, 220)` draw. -/
def schedule_next (sp : Spawner) (now_ms level jitter : Int) : Spawner :=
  { sp with next_spawn_at := now_ms + max 200 (sp.get_spawn_interval level + jitter) }

/-- The `occupied_spawn_points` set built inside
`Spawner.get_available_spawn_points`: spawn points of active zombies, plus
those of active brains when the `brains` argument is truthy (not `None` and
nonempty). -/
def occupiedSpawnPoints (zombies : List Zombie) (brains : Option (List Brain)) :
    List SpawnPoint :=
  let occ := (zombies.filter (fun z => z.is_active 0)).map (fun z => z.spawn)
  match brains with
  | some bs =>
      if bs.isEmpty then occ
      else occ ++ (bs.filter (fun b => b.is_active 0)).map (fun b => b.spawn)
  | none => occ

/-- `Spawner.get_available_spawn_points(zombies, brains)`. -/
def get_available_spawn_points (sp : Spawner) (zombies : List Zombie)
    (brains : Option (List Brain)) : List SpawnPoint :=
  sp.spawn_points.filter (fun p => decide (p ∉ occupiedSpawnPoints zombies brains))

/-- `Spawner.maybe_spawn(now_ms, zombies, level, brains)`.  `jitter0` is the
jitter drawn by the first-call `schedule_next`, `jitter1` the one drawn by the
rescheduling `schedule_next`, `pick` the `random.choice` index draw. -/
def maybe_spawn (sp : Spawner) (now_ms : Int) (zombies : List Zombie) (level : Int)
    (brains : Option (List Brain)) (jitter0 jitter1 : Int) (pick : Nat) :
    Spawner × List Zombie :=
  let sp1 := if sp.next_spawn_at = 0 then sp.schedule_next now_ms level jitter0 else sp
  if now_ms ≥ sp1.next_spawn_at then
    let available := sp1.get_available_spawn_points zombies brains
    let zombies1 :=
      match chooseFrom available pick with
      | some s =>
          zombies ++ [Zombie.init s now_ms
            (MAX_LIFETIME_MS - (level - 1) * LEVEL_LIFETIME_DECREASE)]
      | none => zombies
    (sp1.schedule_next now_ms level jitter1, zombies1)
  else (sp1, zombies)

/-- `Spawner.maybe_spawn_brain(now_ms, zombies, brains)`.  `prob_hit` is the
outcome of `random.random() < BRAIN_SPAWN_PROBABILITY`, `pick` the
`random.choice` index draw. -/
def maybe_spawn_brain (sp : Spawner) (now_ms : Int) (zombies : List Zombie)
    (brains : List Brain) (prob_hit : Bool) (pick : Nat) : Spawner × List Brain :=
  let sp1 :=
    if sp.next_brain_check_at = 0 then
      { sp with next_brain_check_at := now_ms + BRAIN_SPAWN_CHECK_INTERVAL_MS }
    else sp
  if now_ms ≥ sp1.next_brain_check_at then
    let brains1 :=
      if prob_hit then
        match chooseFrom (sp1.get_available_spawn_points zombies (some brains)) pick with
        | some s => brains ++ [Brain.init s now_ms]
        | none => brains
      else brains
    ({ sp1 with next_brain_check_at := now_ms + BRAIN_SPAWN_CHECK_INTERVAL_MS }, brains1)
  else (sp1, brains)

end Spawner

/-! ## Spawner variant of src/waz.py (lines 747-824): concurrency-limited,
no occupancy tracking, reschedules only inside the spawn branch. -/

structure WazSpawner where
  spawn_points : List SpawnPoint
  next_spawn_at : Int
deriving DecidableEq, Repr

namespace WazSpawner

/-- waz.py `Spawner.get_spawn_interval(level)` (waz constants). -/
def get_spawn_interval (_sp : WazSpawner) (level : Int) : Int :=
  max WAZ.MIN_SPAWN_INTERVAL (WAZ.SPAWN_INTERVAL_MS - (level - 1) * LEVEL_SPAWN_DECREASE)

/-- waz.py `Spawner.schedule_next(now_ms, level)`. -/
def schedule_next (sp : WazSpawner) (now_ms level jitter : Int) : WazSpawner :=
  { sp with next_spawn_at := now_ms + max 200 (sp.get_spawn_interval level + jitter) }

/-- waz.py `Spawner.maybe_spawn(now_ms, zombies, level)`: spawns (and
reschedules) only when due AND below `MAX_CONCURRENT_ZOMBIES`. -/
def maybe_spawn (sp : WazSpawner) (now_ms : Int) (zombies : List Zombie) (level : Int)
    (jitter0 jitter1 : Int) (pick : Nat) : WazSpawner × List Zombie :=
  let sp1 := if sp.next_spawn_at = 0 then sp.schedule_next now_ms level jitter0 else sp
  if now_ms ≥ sp1.next_spawn_at ∧ zombies.length < WAZ.MAX_CONCURRENT_ZOMBIES then
    match chooseFrom sp1.spawn_points pick with
    | some s =>
        (sp1.schedule_next now_ms level jitter1,
          zombies ++ [Zombie.init s now_ms
            (MAX_LIFETIME_MS - (level - 1) * LEVEL_LIFETIME_DECREASE)])
    | none => (sp1, zombies)
  else (sp1, zombies)

end WazSpawner

/-! ## Observed lifecycle phases (spec §4.1: Rising/Active, Attacking,
Despawning, Dead) -/

inductive ZPhase where
  | active
  | attacking
  | despawning
  | dead
deriving DecidableEq, Repr

/-- The lifecycle phase an observer reads off a zombie's state: `dead`
dominates, then a started despawn, then attacking, else rising/active. -/
def obsPhase (z : Zombie) : ZPhase :=
  if z.dead = true then ZPhase.dead
  else if z.despawn_start.isSome then ZPhase.despawning
  else if z.attacking = true then ZPhase.attacking
  else ZPhase.active

/-- Position of a phase in the order [Rising/Active, Attacking, Despawning,
Dead]. -/
def phaseRank : ZPhase → Nat
  | ZPhase.active => 0
  | ZPhase.attacking => 1
  | ZPhase.despawning => 2
  | ZPhase.dead => 3

/-- Mutual exclusion of `hit` and `attacking` (spec §3 invariant). -/
def ZMutex (z : Zombie) : Prop :=
  ¬(z.hit = true ∧ z.attacking = true)

/-- State invariant of every zombie reachable from `Zombie.init` through
`update` / `mark_hit` / `start_attack`:  `hit` and `attacking` exclude each
other; `hit` and `dead` each imply a started despawn; a started despawn was
caused by a hit or by completed attack damage. -/
def ZInv (z : Zombie) : Prop :=
  (¬(z.hit = true ∧ z.attacking = true)) ∧
  (z.hit = true → z.despawn_start.isSome) ∧
  (z.dead = true → z.despawn_start.isSome) ∧
  (z.despawn_start.isSome → z.hit = true ∨ z.has_dealt_damage = true)

instance (z : Zombie) : Decidable (ZMutex z) := by
  unfold ZMutex
  infer_instance

instance (z : Zombie) : Decidable (ZInv z) := by
  unfold ZInv
  infer_instance

/-- Spawn points referenced by the live (non-dead) entities of the two entity
lists (spec §4.3 occupancy). -/
def liveSpawns (zombies : List Zombie) (brains : List Brain) : List SpawnPoint :=
  (zombies.filter (fun z => !z.dead)).map (fun z => z.spawn) ++
    (brains.filter (fun b => !b.dead)).map (fun b => b.spawn)

/-! ## Helper lemmas on the Zombie operations -/

namespace Zombie

theorem start_attack_hdd (z : Zombie) (t : Int) :
    (z.start_attack t).has_dealt_damage = z.has_dealt_damage := by
  unfold start_attack
  split <;> rfl

theorem updateAttackPhase_hdd (z : Zombie) (t : Int) :
    (z.updateAttackPhase t).has_dealt_damage = z.has_dealt_damage := by
  unfold updateAttackPhase
  split
  · exact start_attack_hdd z t
  · rfl

theorem updateDespawnPhase_hdd (z : Zombie) (t : Int) :
    (z.updateDespawnPhase t).has_dealt_damage = z.has_dealt_damage := by
  unfold updateDespawnPhase
  cases hd : z.despawn_start with
  | none => rfl
  | some d => dsimp only; split <;> rfl

theorem updateDamagePhase_of_hdd (z : Zombie) (t : Int) (h : z.has_dealt_damage = true) :
    z.updateDamagePhase t = (z, false) := by
  unfold updateDamagePhase
  cases ha : z.attack_start with
  | none => rfl
  | some a => simp [h]

theorem updateDamagePhase_hdd (z : Zombie) (t : Int) :
    (z.updateDamagePhase t).1.has_dealt_damage
      = (z.has_dealt_damage || (z.updateDamagePhase t).2) := by
  unfold updateDamagePhase
  cases ha : z.attack_start with
  | none => simp
  | some a => dsimp only; split <;> simp_all

theorem update_fst_eq (z : Zombie) (t : Int) :
    (z.update t).1 = ((z.updateAttackPhase t).updateDamagePhase t).1.updateDespawnPhase t :=
  rfl

theorem update_snd_eq (z : Zombie) (t : Int) :
    (z.update t).2 = ((z.updateAttackPhase t).updateDamagePhase t).2 :=
  rfl

theorem update_of_hdd (z : Zombie) (t : Int) (h : z.has_dealt_damage = true) :
    (z.update t).1.has_dealt_damage = true ∧ (z.update t).2 = false := by
  have h1 : (z.updateAttackPhase t).has_dealt_damage = true := by
    rw [updateAttackPhase_hdd]; exact h
  have h2 := updateDamagePhase_of_hdd (z.updateAttackPhase t) t h1
  constructor
  · rw [update_fst_eq, updateDespawnPhase_hdd, h2]
    exact h1
  · rw [update_snd_eq, h2]

theorem update_snd_hdd (z : Zombie) (t : Int) (h : (z.update t).2 = true) :
    (z.update t).1.has_dealt_damage = true := by
  rw [update_fst_eq, updateDespawnPhase_hdd, updateDamagePhase_hdd]
  rw [update_snd_eq] at h
  rw [h]
  simp

theorem mark_hit_of_guard (z : Zombie) (t : Int)
    (h : z.hit = true ∨ z.dead = true ∨ z.attacking = true) : z.mark_hit t = z := by
  unfold mark_hit
  rw [if_pos h]

theorem mark_hit_of_free (z : Zombie) (t : Int)
    (h : ¬(z.hit = true ∨ z.dead = true ∨ z.attacking = true)) :
    z.mark_hit t = { z with hit := true, hit_time := some t, despawn_start := some t } := by
  unfold mark_hit
  rw [if_neg h]

theorem start_attack_of_guard (z : Zombie) (t : Int)
    (h : z.hit = true ∨ z.dead = true ∨ z.attacking = true) : z.start_attack t = z := by
  unfold start_attack
  rw [if_pos h]

end Zombie

/-! ## Helper lemmas for the lifecycle ordering (C3) -/

theorem phaseRank_le_three (p : ZPhase) : phaseRank p ≤ 3 := by
  cases p <;> simp [phaseRank]

theorem rank_mark_hit (z : Zombie) (t : Int) :
    phaseRank (obsPhase z) ≤ phaseRank (obsPhase (z.mark_hit t)) := by
  by_cases h : z.hit = true ∨ z.dead = true ∨ z.attacking = true
  · rw [Zombie.mark_hit_of_guard z t h]
  · rw [Zombie.mark_hit_of_free z t h]
    push_neg at h
    have h2 : z.dead = false := by simpa using h.2.1
    have h3 : z.attacking = false := by simpa using h.2.2
    cases hd : z.despawn_start with
    | none => simp [obsPhase, h2, h3, hd, phaseRank]
    | some d => simp [obsPhase, h2, h3, hd, phaseRank]

theorem rank_start_attack (z : Zombie) (t : Int) :
    phaseRank (obsPhase z) ≤ phaseRank (obsPhase (z.start_attack t)) := by
  by_cases h : z.hit = true ∨ z.dead = true ∨ z.attacking = true
  · rw [Zombie.start_attack_of_guard z t h]
  · unfold Zombie.start_attack
    rw [if_neg h]
    push_neg at h
    have h2 : z.dead = false := by simpa using h.2.1
    have h3 : z.attacking = false := by simpa using h.2.2
    cases hd : z.despawn_start with
    | none => simp [obsPhase, h2, h3, hd, phaseRank]
    | some d => simp [obsPhase, h2, h3, hd, phaseRank]

theorem rank_updateAttackPhase (z : Zombie) (t : Int) :
    phaseRank (obsPhase z) ≤ phaseRank (obsPhase (z.updateAttackPhase t)) := by
  unfold Zombie.updateAttackPhase
  split
  · exact rank_start_attack z t
  · exact le_refl _

theorem rank_updateDamagePhase (z : Zombie) (t : Int) :
    phaseRank (obsPhase z) ≤ phaseRank (obsPhase (z.updateDamagePhase t).1) := by
  unfold Zombie.updateDamagePhase
  cases ha : z.attack_start with
  | none => exact le_refl _
  | some a =>
      dsimp only
      split
      · rename_i hc
        cases hz : z.dead with
        | true => simp [obsPhase, hz, phaseRank]
        | false =>
            cases hd : z.despawn_start with
            | none => simp [obsPhase, hz, hd, hc.1, phaseRank]
            | some d => simp [obsPhase, hz, hd, phaseRank]
      · exact le_refl _

theorem rank_updateDespawnPhase (z : Zombie) (t : Int) :
    phaseRank (obsPhase z) ≤ phaseRank (obsPhase (z.updateDespawnPhase t)) := by
  unfold Zombie.updateDespawnPhase
  cases hd : z.despawn_start with
  | none => exact le_refl _
  | some d =>
      dsimp only
      split
      · refine le_trans (phaseRank_le_three _) ?_
        simp [obsPhase, phaseRank]
      · exact le_refl _

theorem rank_update (z : Zombie) (t : Int) :
    phaseRank (obsPhase z) ≤ phaseRank (obsPhase (z.update t).1) := by
  rw [Zombie.update_fst_eq]
  calc phaseRank (obsPhase z)
      ≤ phaseRank (obsPhase (z.updateAttackPhase t)) := rank_updateAttackPhase z t
    _ ≤ phaseRank (obsPhase ((z.updateAttackPhase t).updateDamagePhase t).1) :=
        rank_updateDamagePhase _ t
    _ ≤ _ := rank_updateDespawnPhase _ t

theorem zinv_init (s : SpawnPoint) (b l : Int) : ZInv (Zombie.init s b l) := by
  simp [ZInv, Zombie.init]

theorem zinv_mark_hit (z : Zombie) (t : Int) (h : ZInv z) : ZInv (z.mark_hit t) := by
  by_cases hg : z.hit = true ∨ z.dead = true ∨ z.attacking = true
  · rw [Zombie.mark_hit_of_guard z t hg]
    exact h
  · rw [Zombie.mark_hit_of_free z t hg]
    push_neg at hg
    have h2 : z.dead = false := by simpa using hg.2.1
    have h3 : z.attacking = false := by simpa using hg.2.2
    simp [ZInv, h2, h3]

theorem zinv_start_attack (z : Zombie) (t : Int) (h : ZInv z) : ZInv (z.start_attack t) := by
  by_cases hg : z.hit = true ∨ z.dead = true ∨ z.attacking = true
  · rw [Zombie.start_attack_of_guard z t hg]
    exact h
  · unfold Zombie.start_attack
    rw [if_neg hg]
    push_neg at hg
    have h1 : z.hit = false := by simpa using hg.1
    have h2 : z.dead = false := by simpa using hg.2.1
    obtain ⟨-, -, -, h4⟩ := h
    refine ⟨by simp [h1], by simp [h1], by simp [h2], ?_⟩
    intro hs
    rcases h4 hs with hh | hdd
    · rw [h1] at hh; exact absurd hh (by decide)
    · exact Or.inr hdd

theorem zinv_updateAttackPhase (z : Zombie) (t : Int) (h : ZInv z) :
    ZInv (z.updateAttackPhase t) := by
  unfold Zombie.updateAttackPhase
  split
  · exact zinv_start_attack z t h
  · exact h

theorem zinv_updateDamagePhase (z : Zombie) (t : Int) (h : ZInv z) :
    ZInv (z.updateDamagePhase t).1 := by
  unfold Zombie.updateDamagePhase
  cases ha : z.attack_start with
  | none => exact h
  | some a =>
      dsimp only
      split
      · obtain ⟨h1, h2, h3, -⟩ := h
        exact ⟨by simpa using h1, by intro hh; simp, by intro hd; simp, by simp⟩
      · exact h

theorem zinv_updateDespawnPhase (z : Zombie) (t : Int) (h : ZInv z) :
    ZInv (z.updateDespawnPhase t) := by
  unfold Zombie.updateDespawnPhase
  cases hd : z.despawn_start with
  | none => exact h
  | some d =>
      dsimp only
      split
      · obtain ⟨h1, h2, h3, h4⟩ := h
        refine ⟨by simpa using h1, by simp, by simp, ?_⟩
        intro _
        have hz := h4 (by simp [hd])
        simpa using hz
      · exact h

theorem zinv_update (z : Zombie) (t : Int) (h : ZInv z) : ZInv (z.update t).1 := by
  rw [Zombie.update_fst_eq]
  exact zinv_updateDespawnPhase _ t (zinv_updateDamagePhase _ t (zinv_updateAttackPhase z t h))

theorem obs_attacking_hit_false (z : Zombie) (h : ZInv z)
    (ho : obsPhase z = ZPhase.attacking) : z.hit = false := by
  unfold obsPhase at ho
  split_ifs at ho with hd hs ha
  cases hh : z.hit with
  | false => rfl
  | true => exact absurd (h.2.1 hh) hs

theorem update_of_dead (z : Zombie) (t : Int) (h : ZInv z) (hd : z.dead = true) :
    (z.update t).1 = z ∧ (z.update t).2 = false := by
  obtain ⟨h1, h2, h3, h4⟩ := h
  have hsome := h3 hd
  have e1 : z.updateAttackPhase t = z := by
    unfold Zombie.updateAttackPhase
    rw [if_neg]
    rintro ⟨-, -, -, hnone⟩
    rw [hnone] at hsome
    simp at hsome
  have e2 : z.updateDamagePhase t = (z, false) := by
    unfold Zombie.updateDamagePhase
    cases ha : z.attack_start with
    | none => rfl
    | some a =>
        dsimp only
        rw [if_neg]
        rintro ⟨hattack, hhdd, -⟩
        rcases h4 hsome with hh | hdd2
        · exact h1 ⟨hh, hattack⟩
        · rw [hdd2] at hhdd
          exact absurd hhdd (by decide)
  have e3 : z.updateDespawnPhase t = z := by
    unfold Zombie.updateDespawnPhase
    cases hds : z.despawn_start with
    | none => rfl
    | some d =>
        dsimp only
        split
        · cases z
          simp_all
        · rfl
  constructor
  · rw [Zombie.update_fst_eq, e1, e2]
    exact e3
  · rw [Zombie.update_snd_eq, e1, e2]

/-! ## C1 -/

/-- C1: across any sequence of `update` calls with arbitrary timestamps, the
attack-occurred result (one unit of damage) is returned at most once — and
never again once `has_dealt_damage` is set, including while despawning or
dead. -/
theorem c1_no_double_damage (z : Zombie) (ts : List Int) :
    (z.runUpdates ts).2 ≤ if z.has_dealt_damage = true then 0 else 1 := by
  induction ts generalizing z with
  | nil => simp [Zombie.runUpdates]
  | cons t ts ih =>
      show (if (z.update t).2 then 1 else 0) + ((z.update t).1.runUpdates ts).2
          ≤ if z.has_dealt_damage = true then 0 else 1
      by_cases h : z.has_dealt_damage = true
      · obtain ⟨h1, h2⟩ := Zombie.update_of_hdd z t h
        have hrec := ih (z.update t).1
        rw [if_pos h1] at hrec
        rw [h2, if_pos h]
        simpa using hrec
      · rw [if_neg h]
        by_cases hb : (z.update t).2 = true
        · have h1 := Zombie.update_snd_hdd z t hb
          have hrec := ih (z.update t).1
          rw [if_pos h1] at hrec
          rw [hb]
          simp only [if_pos]
          omega
        · have hb' : (z.update t).2 = false := by
            cases hx : (z.update t).2
            · rfl
            · exact absurd hx hb
          have hrec := ih (z.update t).1
          have hle : ((z.update t).1.runUpdates ts).2 ≤ 1 := by
            by_cases hc : (z.update t).1.has_dealt_damage = true
            · rw [if_pos hc] at hrec; omega
            · rw [if_neg hc] at hrec; omega
          rw [hb']
          simpa using hle

/-! ## C2 -/

/-- C2: `mark_hit` is a no-op whenever the zombie is already hit, attacking,
or dead; it is idempotent (the second of two calls, at any timestamps, leaves
the state unchanged); and a first effective call sets only `hit`, `hit_time`
and `despawn_start`, leaving `attacking`, `dead` and `has_dealt_damage`
untouched. -/
theorem c2_mark_hit_idempotent :
    (∀ (z : Zombie) (t : Int),
      z.hit = true ∨ z.dead = true ∨ z.attacking = true → z.mark_hit t = z) ∧
    (∀ (z : Zombie) (t1 t2 : Int), (z.mark_hit t1).mark_hit t2 = z.mark_hit t1) ∧
    (∀ (z : Zombie) (t : Int), z.hit = false → z.dead = false → z.attacking = false →
      (z.mark_hit t).hit = true ∧ (z.mark_hit t).hit_time = some t ∧
      (z.mark_hit t).despawn_start = some t ∧ (z.mark_hit t).attacking = z.attacking ∧
      (z.mark_hit t).dead = z.dead ∧
      (z.mark_hit t).has_dealt_damage = z.has_dealt_damage) := by
  refine ⟨?_, ?_, ?_⟩
  · intro z t h
    exact Zombie.mark_hit_of_guard z t h
  · intro z t1 t2
    by_cases h : z.hit = true ∨ z.dead = true ∨ z.attacking = true
    · rw [Zombie.mark_hit_of_guard z t1 h, Zombie.mark_hit_of_guard z t2 h]
    · rw [Zombie.mark_hit_of_free z t1 h]
      exact Zombie.mark_hit_of_guard _ t2 (Or.inl rfl)
  · intro z t h1 h2 h3
    rw [Zombie.mark_hit_of_free z t (by simp [h1, h2, h3])]
    simp

/-- Witness for C2: a zombie already hit is untouched, and two successive
calls on a fresh zombie equal one. -/
theorem c2_mark_hit_idempotent_witness :
    ({ Zombie.init ⟨(0, 0), 40⟩ 0 800 with
        hit := true, hit_time := some 5, despawn_start := some 5 }.mark_hit 9
      = { Zombie.init ⟨(0, 0), 40⟩ 0 800 with
        hit := true, hit_time := some 5, despawn_start := some 5 }) ∧
    (((Zombie.init ⟨(0, 0), 40⟩ 0 800).mark_hit 3).mark_hit 7
      = (Zombie.init ⟨(0, 0), 40⟩ 0 800).mark_hit 3) := by
  exact ⟨c2_mark_hit_idempotent.1 _ 9 (Or.inl rfl), c2_mark_hit_idempotent.2.1 _ 3 7⟩

/-! ## C7 -/

/-- C7: at most one of `hit`, `attacking` is ever true — the mutual exclusion
holds for a freshly constructed zombie and is preserved by `mark_hit`,
`start_attack` and `update` at every timestamp. -/
theorem c7_hit_attacking_mutex :
    (∀ (s : SpawnPoint) (b l : Int), ZMutex (Zombie.init s b l)) ∧
    (∀ (z : Zombie) (t : Int), ZMutex z →
      ZMutex (z.mark_hit t) ∧ ZMutex (z.start_attack t) ∧ ZMutex (z.update t).1) := by
  constructor
  · intro s b l
    simp [ZMutex, Zombie.init]
  · intro z t h
    refine ⟨?_, ?_, ?_⟩
    · unfold Zombie.mark_hit
      split
      · exact h
      · rename_i hg
        push_neg at hg
        simp [ZMutex, hg.2.2]
    · unfold Zombie.start_attack
      split
      · exact h
      · rename_i hg
        push_neg at hg
        simp [ZMutex, hg.1]
    · show ZMutex (((z.updateAttackPhase t).updateDamagePhase t).1.updateDespawnPhase t)
      have h1 : ZMutex (z.updateAttackPhase t) := by
        unfold Zombie.updateAttackPhase Zombie.start_attack
        split
        · split
          · exact h
          · rename_i hg _
            simp [ZMutex, hg.1]
        · exact h
      have h2 : ZMutex ((z.updateAttackPhase t).updateDamagePhase t).1 := by
        unfold Zombie.updateDamagePhase
        cases ha : (z.updateAttackPhase t).attack_start with
        | none => exact h1
        | some a =>
            dsimp only
            split
            · rename_i hc
              simpa [ZMutex] using h1
            · exact h1
      unfold Zombie.updateDespawnPhase
      cases hd : ((z.updateAttackPhase t).updateDamagePhase t).1.despawn_start with
      | none => exact h2
      | some d =>
          dsimp only
          split
          · simpa [ZMutex] using h2
          · exact h2

/-- Witness for C7: the mutual exclusion, instantiated on a freshly spawned
zombie and one `update` step past its lifetime. -/
theorem c7_hit_attacking_mutex_witness :
    ZMutex ((Zombie.init ⟨(0, 0), 40⟩ 0 800).update 900).1 := by
  exact (c7_hit_attacking_mutex.2 (Zombie.init ⟨(0, 0), 40⟩ 0 800) 900
    (c7_hit_attacking_mutex.1 ⟨(0, 0), 40⟩ 0 800)).2.2

/-! ## C3 -/

/-- C3: lifecycle ordering.  The state invariant `ZInv` holds for a freshly
constructed zombie and is preserved by `mark_hit`, `start_attack` and `update`
at every timestamp; under each operation the observed phase never moves
backwards along [Rising/Active, Attacking, Despawning, Dead]; the Attacking
phase is observed only while the zombie is not hit; and Dead is terminal:
once `dead` is set, every operation leaves the state unchanged and `update`
returns False. -/
theorem c3_state_ordering :
    (∀ (s : SpawnPoint) (b l : Int), ZInv (Zombie.init s b l)) ∧
    (∀ (z : Zombie) (t : Int), ZInv z →
      ZInv (z.mark_hit t) ∧ ZInv (z.start_attack t) ∧ ZInv (z.update t).1) ∧
    (∀ (z : Zombie) (t : Int),
      phaseRank (obsPhase z) ≤ phaseRank (obsPhase (z.mark_hit t)) ∧
      phaseRank (obsPhase z) ≤ phaseRank (obsPhase (z.start_attack t)) ∧
      phaseRank (obsPhase z) ≤ phaseRank (obsPhase (z.update t).1)) ∧
    (∀ z : Zombie, ZInv z → obsPhase z = ZPhase.attacking → z.hit = false) ∧
    (∀ (z : Zombie) (t : Int), ZInv z → z.dead = true →
      z.mark_hit t = z ∧ z.start_attack t = z ∧
        (z.update t).1 = z ∧ (z.update t).2 = false) := by
  refine ⟨zinv_init, ?_, ?_, obs_attacking_hit_false, ?_⟩
  · intro z t h
    exact ⟨zinv_mark_hit z t h, zinv_start_attack z t h, zinv_update z t h⟩
  · intro z t
    exact ⟨rank_mark_hit z t, rank_start_attack z t, rank_update z t⟩
  · intro z t h hd
    exact ⟨Zombie.mark_hit_of_guard z t (Or.inr (Or.inl hd)),
      Zombie.start_attack_of_guard z t (Or.inr (Or.inl hd)),
      (update_of_dead z t h hd).1, (update_of_dead z t h hd).2⟩

/-- Witness for C3: on a concrete dead (already hit and despawned) zombie,
every operation is the identity and `update` returns False. -/
theorem c3_state_ordering_witness :
    let zd : Zombie := { Zombie.init ⟨(0, 0), 40⟩ 0 800 with
      hit := true, hit_time := some 5, despawn_start := some 5, dead := true }
    zd.mark_hit 9 = zd ∧ zd.start_attack 9 = zd ∧
      (zd.update 9).1 = zd ∧ (zd.update 9).2 = false := by
  intro zd
  exact c3_state_ordering.2.2.2.2 zd 9 (by decide) rfl

/-! ## C4 -/

/-- C4: after any `schedule_next(now, level)` call, in both the modular
spawner and the waz.py variant, `next_spawn_at` is strictly greater than
`now`, exceeds it by at least the 200 ms floor, and exceeds it by at most
`base_interval(level) + 220` (the maximal jitter), for every level ≥ 1 and
every jitter draw in −150..220. -/
theorem c4_schedule_monotone (sp : Spawner) (wsp : WazSpawner) (now level jitter : Int)
    (hlevel : 1 ≤ level) (hj1 : -150 ≤ jitter) (hj2 : jitter ≤ 220) :
    (now < (sp.schedule_next now level jitter).next_spawn_at ∧
      now + 200 ≤ (sp.schedule_next now level jitter).next_spawn_at ∧
      (sp.schedule_next now level jitter).next_spawn_at
        ≤ now + sp.get_spawn_interval level + 220) ∧
    (now < (wsp.schedule_next now level jitter).next_spawn_at ∧
      now + 200 ≤ (wsp.schedule_next now level jitter).next_spawn_at ∧
      (wsp.schedule_next now level jitter).next_spawn_at
        ≤ now + wsp.get_spawn_interval level + 220) := by
  unfold Spawner.schedule_next WazSpawner.schedule_next
  unfold Spawner.get_spawn_interval WazSpawner.get_spawn_interval
  unfold MIN_SPAWN_INTERVAL SPAWN_INTERVAL_MS WAZ.MIN_SPAWN_INTERVAL WAZ.SPAWN_INTERVAL_MS
  unfold LEVEL_SPAWN_DECREASE
  dsimp only
  omega

/-- Witness for C4: `schedule_next(0, 1)` with jitter 0 lands strictly after
time 0 on both spawner variants. -/
theorem c4_schedule_monotone_witness :
    (0 : Int) < ((Spawner.init []).schedule_next 0 1 0).next_spawn_at ∧
    (0 : Int) < (WazSpawner.schedule_next ⟨[], 0⟩ 0 1 0).next_spawn_at := by
  have h := c4_schedule_monotone (Spawner.init []) ⟨[], 0⟩ 0 1 0
    (by decide) (by decide) (by decide)
  exact ⟨h.1.1, h.2.1⟩

/-! ## C5 -/

/-- Counterexample for C5: the claim covers the concurrency-limit case, which
exists only in the waz.py variant — and there a due `maybe_spawn` call made
at the concurrency limit (`MAX_CONCURRENT_ZOMBIES = 1` live zombie) leaves
`next_spawn_at` unchanged at 5 ≤ now = 10, so the call does not end with
`next_spawn_at > now_ms`. -/
theorem c5_counterexample :
    let wsp : WazSpawner := { spawn_points := [⟨(100, 100), 40⟩], next_spawn_at := 5 }
    let r := wsp.maybe_spawn 10 [Zombie.init ⟨(100, 100), 40⟩ 0 2000] 1 0 0 0
    wsp.next_spawn_at ≠ 0 ∧ wsp.next_spawn_at ≤ 10 ∧
      ¬(10 < r.1.next_spawn_at) ∧ r.1.next_spawn_at = 5 := by
  decide

/-- C5 as amended: in the modular spawner (src/spawner.py), whose
`maybe_spawn` has no concurrency limit, every due call (initialized schedule,
`now_ms ≥ next_spawn_at`) ends with `next_spawn_at > now_ms` regardless of
whether a zombie was created — including when no unoccupied spawn point
exists.  In the waz.py variant the schedule is advanced only when a spawn
actually occurs, so the guarantee does not extend to its concurrency-limit
case. -/
theorem c5_amended_always_reschedules (sp : Spawner) (now : Int) (zombies : List Zombie)
    (level : Int) (brains : Option (List Brain)) (jitter0 jitter1 : Int) (pick : Nat)
    (h0 : sp.next_spawn_at ≠ 0) (h1 : sp.next_spawn_at ≤ now) :
    now < (sp.maybe_spawn now zombies level brains jitter0 jitter1 pick).1.next_spawn_at := by
  simp only [Spawner.maybe_spawn]
  rw [if_neg h0, if_pos h1]
  show now < now + max 200 (sp.get_spawn_interval level + jitter1)
  have h200 := le_max_left 200 (sp.get_spawn_interval level + jitter1)
  omega

/-- Witness for C5's amended claim: a due call on a spawner whose single
spawn point is occupied by a live zombie still advances the schedule past
`now`. -/
theorem c5_amended_always_reschedules_witness :
    (10 : Int) < (((Spawner.mk [⟨(100, 100), 40⟩] 5 0).maybe_spawn 10
      [Zombie.init ⟨(100, 100), 40⟩ 0 2000] 1 (some []) 0 0 0).1.next_spawn_at) := by
  apply c5_amended_always_reschedules
  · decide
  · decide

/-! ## C10 -/

/-- C10: a `maybe_spawn` call on a spawner whose schedule is uninitialized
(`next_spawn_at = 0`) only initializes the schedule to a time strictly after
`now_ms` and never appends a zombie, for any level, entity lists and random
draws. -/
theorem c10_first_call_never_spawns (sp : Spawner) (now : Int) (zombies : List Zombie)
    (level : Int) (brains : Option (List Brain)) (jitter0 jitter1 : Int) (pick : Nat)
    (h : sp.next_spawn_at = 0) :
    (sp.maybe_spawn now zombies level brains jitter0 jitter1 pick).2 = zombies ∧
    now < (sp.maybe_spawn now zombies level brains jitter0 jitter1 pick).1.next_spawn_at := by
  have hgt : now < (sp.schedule_next now level jitter0).next_spawn_at := by
    show now < now + max 200 (sp.get_spawn_interval level + jitter0)
    have h200 := le_max_left 200 (sp.get_spawn_interval level + jitter0)
    omega
  simp only [Spawner.maybe_spawn]
  rw [if_pos h, if_neg (not_le.mpr hgt)]
  exact ⟨rfl, hgt⟩

/-- Witness for C10: the first call on a fresh spawner with one free spawn
point and a due-looking `now` of 1000 spawns nothing and schedules strictly
after 1000. -/
theorem c10_first_call_never_spawns_witness :
    ((Spawner.init [⟨(100, 100), 40⟩]).maybe_spawn 1000 [] 1 none 0 0 0).2 = [] ∧
    (1000 : Int)
      < ((Spawner.init [⟨(100, 100), 40⟩]).maybe_spawn 1000 [] 1 none 0 0 0).1.next_spawn_at := by
  exact c10_first_call_never_spawns (Spawner.init [⟨(100, 100), 40⟩]) 1000 [] 1 none 0 0 0 rfl

/-! ## Helper lemmas for occupancy (C6) -/

theorem chooseFrom_mem {α : Type} (l : List α) (pick : Nat) (s : α)
    (h : chooseFrom l pick = some s) : s ∈ l := by
  unfold chooseFrom at h
  rw [← List.get?_eq_getElem?] at h
  exact List.get?_mem h

theorem get_available_points_eq (sp1 sp2 : Spawner) (zombies : List Zombie)
    (brains : Option (List Brain)) (hp : sp1.spawn_points = sp2.spawn_points) :
    sp1.get_available_spawn_points zombies brains
      = sp2.get_available_spawn_points zombies brains := by
  unfold Spawner.get_available_spawn_points
  rw [hp]

theorem mem_available_not_occupied (sp : Spawner) (zombies : List Zombie)
    (brains : Option (List Brain)) (s : SpawnPoint)
    (hs : s ∈ sp.get_available_spawn_points zombies brains) :
    s ∉ Spawner.occupiedSpawnPoints zombies brains := by
  unfold Spawner.get_available_spawn_points at hs
  rw [List.mem_filter] at hs
  simpa using hs.2

theorem occupied_some (zombies : List Zombie) (bs : List Brain) :
    Spawner.occupiedSpawnPoints zombies (some bs)
      = (zombies.filter (fun z => !z.dead)).map (fun z => z.spawn) ++
        (bs.filter (fun b => !b.dead)).map (fun b => b.spawn) := by
  simp only [Spawner.occupiedSpawnPoints, Zombie.is_active, Brain.is_active]
  split
  · rename_i hbe
    have hnil : bs = [] := by simpa using hbe
    subst hnil
    simp
  · rfl

theorem maybe_spawn_zombies_cases (sp : Spawner) (now : Int) (zombies : List Zombie)
    (level : Int) (brains : Option (List Brain)) (jitter0 jitter1 : Int) (pick : Nat) :
    (sp.maybe_spawn now zombies level brains jitter0 jitter1 pick).2 = zombies ∨
    ∃ s ∈ sp.get_available_spawn_points zombies brains,
      (sp.maybe_spawn now zombies level brains jitter0 jitter1 pick).2
        = zombies ++
          [Zombie.init s now (MAX_LIFETIME_MS - (level - 1) * LEVEL_LIFETIME_DECREASE)] := by
  simp only [Spawner.maybe_spawn]
  set sp1 := if sp.next_spawn_at = 0 then sp.schedule_next now level jitter0 else sp with hsp1
  have hpoints : sp1.spawn_points = sp.spawn_points := by
    rw [hsp1]
    split <;> rfl
  by_cases hdue : now ≥ sp1.next_spawn_at
  · rw [if_pos hdue]
    cases hc : chooseFrom (sp1.get_available_spawn_points zombies brains) pick with
    | none =>
        left
        simp [hc]
    | some s =>
        right
        refine ⟨s, ?_, by simp [hc]⟩
        have hmem := chooseFrom_mem _ _ _ hc
        rwa [get_available_points_eq sp1 sp zombies brains hpoints] at hmem
  · rw [if_neg hdue]
    left
    rfl

theorem maybe_spawn_brain_cases (sp : Spawner) (now : Int) (zombies : List Zombie)
    (brains : List Brain) (prob : Bool) (pick : Nat) :
    (sp.maybe_spawn_brain now zombies brains prob pick).2 = brains ∨
    ∃ s ∈ sp.get_available_spawn_points zombies (some brains),
      (sp.maybe_spawn_brain now zombies brains prob pick).2
        = brains ++ [Brain.init s now] := by
  simp only [Spawner.maybe_spawn_brain]
  set sp1 := if sp.next_brain_check_at = 0 then
      { sp with next_brain_check_at := now + BRAIN_SPAWN_CHECK_INTERVAL_MS }
    else sp with hsp1
  have hpoints : sp1.spawn_points = sp.spawn_points := by
    rw [hsp1]
    split <;> rfl
  by_cases hdue : now ≥ sp1.next_brain_check_at
  · rw [if_pos hdue]
    cases prob with
    | false =>
        left
        simp
    | true =>
        cases hc : chooseFrom (sp1.get_available_spawn_points zombies (some brains)) pick with
        | none =>
            left
            simp [hc]
        | some s =>
            right
            refine ⟨s, ?_, by simp [hc]⟩
            have hmem := chooseFrom_mem _ _ _ hc
            rwa [get_available_points_eq sp1 sp zombies (some brains) hpoints] at hmem
  · rw [if_neg hdue]
    left
    rfl

theorem nodup_insert_middle {α : Type} (A B : List α) (s : α)
    (h : (A ++ B).Nodup) (hA : s ∉ A) (hB : s ∉ B) : (A ++ s :: B).Nodup := by
  rw [List.nodup_append] at h ⊢
  obtain ⟨h1, h2, h3⟩ := h
  refine ⟨h1, List.nodup_cons.mpr ⟨hB, h2⟩, ?_⟩
  intro a ha hmem
  rcases List.mem_cons.mp hmem with rfl | hb
  · exact hA ha
  · exact h3 ha hb

theorem nodup_append_last {α : Type} (A B : List α) (s : α)
    (h : (A ++ B).Nodup) (hA : s ∉ A) (hB : s ∉ B) : (A ++ (B ++ [s])).Nodup := by
  rw [← List.append_assoc, List.nodup_append]
  refine ⟨h, List.nodup_singleton s, ?_⟩
  intro a ha hmem
  rcases List.mem_singleton.mp hmem with rfl
  rcases List.mem_append.mp ha with h1 | h2
  · exact hA h1
  · exact hB h2

/-! ## C6 -/

/-- C6: occupancy exclusivity.  If no two live (non-dead) entities of the
zombie and brain lists share a spawn point, the same holds after any
`maybe_spawn` (for the zombie list) or `maybe_spawn_brain` (for the brain
list) call: the spawner only ever places a new entity on a point drawn from
`get_available_spawn_points`, which excludes every point referenced by a
live entity. -/
theorem c6_occupancy_exclusive (sp : Spawner) (now : Int) (zombies : List Zombie)
    (level : Int) (brains : List Brain) (jitter0 jitter1 : Int) (pick : Nat)
    (prob : Bool) (pick2 : Nat)
    (h : (liveSpawns zombies brains).Nodup) :
    (liveSpawns (sp.maybe_spawn now zombies level (some brains) jitter0 jitter1 pick).2
      brains).Nodup ∧
    (liveSpawns zombies (sp.maybe_spawn_brain now zombies brains prob pick2).2).Nodup := by
  constructor
  · rcases maybe_spawn_zombies_cases sp now zombies level (some brains) jitter0 jitter1 pick
      with he | ⟨s, hsmem, he⟩
    · rw [he]
      exact h
    · rw [he]
      have hocc := mem_available_not_occupied sp zombies (some brains) s hsmem
      rw [occupied_some] at hocc
      have hA : s ∉ (zombies.filter (fun z => !z.dead)).map (fun z => z.spawn) :=
        fun ha => hocc (List.mem_append_left _ ha)
      have hB : s ∉ (brains.filter (fun b => !b.dead)).map (fun b => b.spawn) :=
        fun hb => hocc (List.mem_append_right _ hb)
      unfold liveSpawns at h ⊢
      rw [List.filter_append, List.map_append]
      have hnew : (([Zombie.init s now
            (MAX_LIFETIME_MS - (level - 1) * LEVEL_LIFETIME_DECREASE)].filter
          (fun z => !z.dead)).map (fun z => z.spawn)) = [s] := by
        simp [Zombie.init]
      rw [hnew, List.append_assoc]
      exact nodup_insert_middle _ _ s h hA hB
  · rcases maybe_spawn_brain_cases sp now zombies brains prob pick2
      with he | ⟨s, hsmem, he⟩
    · rw [he]
      exact h
    · rw [he]
      have hocc := mem_available_not_occupied sp zombies (some brains) s hsmem
      rw [occupied_some] at hocc
      have hA : s ∉ (zombies.filter (fun z => !z.dead)).map (fun z => z.spawn) :=
        fun ha => hocc (List.mem_append_left _ ha)
      have hB : s ∉ (brains.filter (fun b => !b.dead)).map (fun b => b.spawn) :=
        fun hb => hocc (List.mem_append_right _ hb)
      unfold liveSpawns at h ⊢
      rw [List.filter_append, List.map_append]
      have hnew : (([Brain.init s now].filter (fun b => !b.dead)).map
          (fun b => b.spawn)) = [s] := by
        simp [Brain.init]
      rw [hnew]
      exact nodup_append_last _ _ s h hA hB

/-- Witness for C6: a due spawn into an empty world keeps the live spawn
points duplicate-free. -/
theorem c6_occupancy_exclusive_witness :
    (liveSpawns ((Spawner.mk [⟨(100, 100), 40⟩] 5 0).maybe_spawn 10 [] 1
      (some []) 0 0 0).2 []).Nodup := by
  exact (c6_occupancy_exclusive (Spawner.mk [⟨(100, 100), 40⟩] 5 0) 10 [] 1 [] 0 0 0
    false 0 (by decide)).1

/-! ## C8 -/

/-- C8 evaluated at the failing input: `maybe_spawn` computes the new
zombie's lifetime as `MAX_LIFETIME_MS - (level - 1) * LEVEL_LIFETIME_DECREASE`
with no floor, so at level 17 a due spawn creates a zombie whose lifetime is
400 ms, strictly below the configured minimum `MIN_ZOMBIE_LIFETIME = 500`
that constants.py declares (and the spec requires) as the floor. -/
theorem c8_lifetime_below_min_at_level17 :
    let sp : Spawner := Spawner.mk [⟨(100, 100), 40⟩] 1 0
    let r := sp.maybe_spawn 10 [] 17 none 0 0 0
    r.2 = [Zombie.init ⟨(100, 100), 40⟩ 10 400] ∧ (400 : Int) < MIN_ZOMBIE_LIFETIME := by
  decide

/-! ## C9 -/

/-- Counterexample for C9: a brain born at 0 with lifetime 1000 expires
untouched at `update(1000)` (its expiry despawn begins: `despawn_start` is
set, `picked_up` still false), yet a `mark_picked_up(1100)` call during the
despawn animation still sets `picked_up` — contradicting the claim that
`mark_picked_up` never sets `picked_up` once the expiry despawn has begun. -/
theorem c9_counterexample :
    let b1 := (Brain.init ⟨(100, 100), 40⟩ 0).update 1000
    b1.picked_up = false ∧ b1.despawn_start = some 1000 ∧ b1.dead = false ∧
      (b1.mark_picked_up 1100).picked_up = true := by
  decide

/-- C9 as amended: a brain whose lifetime elapses unpicked starts its expiry
despawn at that `update`, and once the despawn completes (`dead` is set,
`DESPAWN_ANIM_MS` after it began) the brain is inert: `mark_picked_up` is a
no-op, `contains_point` returns False for every point, and `update` keeps it
dead — so a fully expired brain can never grant a life.  (During the
despawn animation itself a click can still register a pickup.) -/
theorem c9_amended_expired_dead_brain_inert (b : Brain) (t : Int) (sl : Bool)
    (w ht : Int) (p : Int × Int) (hdead : b.dead = true) :
    (b.mark_picked_up t = b ∧ b.contains_point sl w ht p = false ∧
      (b.update t).dead = true) ∧
    (∀ (b2 : Brain) (t2 t3 : Int), b2.picked_up = false → b2.dead = false →
      b2.despawn_start = none → t2 - b2.born_at ≥ b2.lifetime →
      t3 - t2 ≥ Brain.DESPAWN_ANIM_MS →
      (b2.update t2).despawn_start = some t2 ∧ (b2.update t2).picked_up = false ∧
        ((b2.update t2).update t3).dead = true) := by
  constructor
  · refine ⟨?_, ?_, ?_⟩
    · unfold Brain.mark_picked_up
      rw [if_pos (Or.inr hdead)]
    · unfold Brain.contains_point
      rw [if_pos (Or.inr hdead)]
    · unfold Brain.update
      rw [if_neg (by rintro ⟨-, hd2, -⟩; rw [hdead] at hd2; exact absurd hd2 (by decide))]
      dsimp only
      split
      · split
        · rfl
        · exact hdead
      · exact hdead
  · intro b2 t2 t3 hpu hd hds hlife hanim
    have e1 : b2.update t2 = { b2 with despawn_start := some t2, dead := false } := by
      unfold Brain.update
      rw [if_pos ⟨hpu, hd, hds, hlife⟩]
      dsimp only
      rw [if_neg (by unfold Brain.DESPAWN_ANIM_MS; omega)]
      cases b2
      simp_all
    refine ⟨by rw [e1], by rw [e1]; exact hpu, ?_⟩
    rw [e1]
    unfold Brain.update
    rw [if_neg (by rintro ⟨-, -, hnone, -⟩; simp at hnone)]
    dsimp only
    rw [if_pos hanim]

/-- Witness for C9's amended claim: a concrete brain whose expiry despawn
has completed rejects a later click and hit test. -/
theorem c9_amended_expired_dead_brain_inert_witness :
    let bd : Brain := { Brain.init ⟨(100, 100), 40⟩ 0 with
      despawn_start := some 1000, dead := true }
    bd.mark_picked_up 1400 = bd ∧ bd.contains_point true 40 35 (100, 100) = false := by
  intro bd
  have h := c9_amended_expired_dead_brain_inert bd 1400 true 40 35 (100, 100) rfl
  exact ⟨h.1.1, h.1.2.1⟩
